import Mathlib

/-!
Verification of the paddle-ocr client-side job-orchestration layer.

This file shallowly embeds the TypeScript sources into Lean:
* `src/services/backendLogService.ts` — the log stream normalizer
  (`startStreaming`'s `onmessage` handler);
* `src/services/ocrService.ts` — `processWithDocker`'s watchdog heartbeat,
  stream-log interpretive layer, upload-progress handler, terminal XHR
  outcome, and `listScans`;
* `App.tsx` (`handleUpload`) — streamed-text accumulation and the
  reconciliation of the terminal outcome with accumulated streamed text.

Machine reals used by the source only for cosmetic output (`toFixed`,
`Math.round(parseFloat(..) * 100)`) are modelled with exact rationals;
no verified claim depends on those rendered digit strings.
-/

namespace PaddleOcr

/-! ## JavaScript-style string primitives -/

/-- The whitespace class used by JS `String.prototype.trim` and regex `\s`
(restricted to the ASCII part, which is all the backend emits). -/
def isSpaceJS (c : Char) : Bool :=
  c = ' ' ∨ c = '\t' ∨ c = '\n' ∨ c = '\r' ∨ c = '\x0b' ∨ c = '\x0c'

/-- Strip trailing JS whitespace from a character list. -/
def dropTrailingWs (cs : List Char) : List Char :=
  (cs.reverse.dropWhile isSpaceJS).reverse

/-- JS `String.prototype.trim` on a character list. -/
def jsTrimList (cs : List Char) : List Char :=
  dropTrailingWs (cs.dropWhile isSpaceJS)

/-- JS `String.prototype.trim`. -/
def jsTrim (s : String) : String :=
  String.mk (jsTrimList s.data)

/-- Structural prefix test on character lists (splits on the pattern
first, so `isPre [] cs` reduces for a free `cs`). -/
def isPre : List Char → List Char → Bool
  | [], _ => true
  | _ :: _, [] => false
  | a :: as, b :: bs => (a = b) && isPre as bs

/-- JS `String.prototype.startsWith`. -/
def jsStartsWith (s p : String) : Bool :=
  isPre p.data s.data

/-- Does `pat` occur anywhere in `cs`? -/
def containsSub : List Char → List Char → Bool
  | [], pat => pat.isEmpty
  | c :: rest, pat => isPre pat (c :: rest) || containsSub rest pat

/-- JS `String.prototype.includes`. -/
def strContains (s p : String) : Bool :=
  containsSub s.data p.data

/-- The suffix after the first occurrence of `pat`, if any. -/
def afterFirst : List Char → List Char → Option (List Char)
  | [], _ => none
  | c :: rest, pat =>
    if isPre pat (c :: rest) then some ((c :: rest).drop pat.length)
    else afterFirst rest pat

/-- The prefix up to the first occurrence of `pat` (all of `cs` if none). -/
def upTo : List Char → List Char → List Char
  | [], _ => []
  | c :: rest, pat =>
    if isPre pat (c :: rest) then [] else c :: upTo rest pat

/-- `s.split(pat)[1]` when `pat` occurs in `s`: the text strictly between
the first occurrence of `pat` and the next occurrence (or the end). -/
def splitPart1 (s pat : String) : String :=
  match afterFirst s.data pat.data with
  | some suf => String.mk (upTo suf pat.data)
  | none => ""

/-- JS `String.prototype.toUpperCase` (ASCII, as `Char.toUpper`). -/
def jsToUpper (s : String) : String :=
  String.mk (s.data.map Char.toUpper)

/-- Remove the first occurrence of `pat` from `cs`
(JS `String.prototype.replace(pat, '')` with a plain-string pattern). -/
def removeFirstList (cs pat : List Char) : List Char :=
  match cs with
  | [] => []
  | c :: rest =>
    if isPre pat (c :: rest) then (c :: rest).drop pat.length
    else c :: removeFirstList rest pat

/-- JS `s.replace(pat, '')` for a plain-string `pat`. -/
def removeFirstStr (s pat : String) : String :=
  String.mk (removeFirstList s.data pat.data)

/-! ## A model of parsed JSON values

`JSON.parse` results are modelled by `Json`.  JSON numbers are restricted
to integers (floating-point payload numbers never influence any verified
claim).  Lists and field lists are their own inductives so that every
recursion below is plainly structural. -/

mutual

inductive Json where
  | null : Json
  | bool (b : Bool) : Json
  | num (n : Int) : Json
  | str (s : String) : Json
  | arr (elems : JsonList) : Json
  | obj (fields : JsonFields) : Json

inductive JsonList where
  | nil : JsonList
  | cons (hd : Json) (tl : JsonList) : JsonList

inductive JsonFields where
  | nil : JsonFields
  | cons (name : String) (val : Json) (tl : JsonFields) : JsonFields

end

/-- JS truthiness of a parsed JSON value (`NaN` cannot arise: numbers are
integral in this model). -/
def truthy : Json → Bool
  | .null => false
  | .bool b => b
  | .num n => n ≠ 0
  | .str s => s ≠ ""
  | .arr _ => true
  | .obj _ => true

/-- Property access `data.name` on an object's field list (parsed JSON
objects have unique keys, so first match is the match). -/
def lookupFields : JsonFields → String → Option Json
  | .nil, _ => none
  | .cons k v rest, name => if k = name then some v else lookupFields rest name

/-- Property access `data.name`: `undefined` (`none`) unless `data` is an
object carrying the field. -/
def jsonGetField (d : Json) (name : String) : Option Json :=
  match d with
  | .obj fs => lookupFields fs name
  | _ => none

/-- `Object.keys(data).length` for an object. -/
def fieldsLength : JsonFields → Nat
  | .nil => 0
  | .cons _ _ rest => fieldsLength rest + 1

/-- Length of a JSON array. -/
def jsonListLength : JsonList → Nat
  | .nil => 0
  | .cons _ rest => jsonListLength rest + 1

/-- JSON string escaping for `JSON.stringify` (the escapes the backend's
payload texts can hit; exotic control characters are passed through). -/
def escChar (c : Char) : String :=
  if c = '"' then "\\\""
  else if c = '\\' then "\\\\"
  else if c = '\n' then "\\n"
  else if c = '\t' then "\\t"
  else if c = '\r' then "\\r"
  else String.mk [c]

/-- Escape a whole string for `JSON.stringify`. -/
def escapeJson (s : String) : String :=
  String.join (s.data.map escChar)

mutual

/-- `JSON.stringify` on the `Json` model. -/
def stringify : Json → String
  | .null => "null"
  | .bool b => if b then "true" else "false"
  | .num n => toString n
  | .str s => "\"" ++ escapeJson s ++ "\""
  | .arr xs => "[" ++ stringifyElems xs ++ "]"
  | .obj fs => "\x7b" ++ stringifyPairs fs ++ "\x7d"

/-- Comma-joined stringification of array elements. -/
def stringifyElems : JsonList → String
  | .nil => ""
  | .cons x .nil => stringify x
  | .cons x rest => stringify x ++ "," ++ stringifyElems rest

/-- Comma-joined stringification of object fields. -/
def stringifyPairs : JsonFields → String
  | .nil => ""
  | .cons k v .nil => "\"" ++ escapeJson k ++ "\":" ++ stringify v
  | .cons k v rest => "\"" ++ escapeJson k ++ "\":" ++ stringify v ++ "," ++ stringifyPairs rest

end

/-! ## `backendLogService.startStreaming` — the log stream normalizer

`eventSource.onmessage` receives the raw event text; `JSON.parse` is an
external library call, so the handler is modelled as a function of the raw
text together with its parse result (`none` when `JSON.parse` throws).
The two are tied together at every concrete instantiation. -/

/-- A normalized log entry `{ ts, msg }` as passed to the `onLog` callback.
Both components are JS values: the source forwards whatever `data.ts` / the
extracted message happen to be. -/
structure RawEntry where
  ts : Json
  msg : Json

/-- The priority-ordered message field names scanned by the normalizer. -/
def msgFieldNames : List String :=
  ["msg", "message", "log", "content", "stdout", "stderr", "status", "error"]

/-- The severity field names (`data.level || data.levelname`). -/
def levelFieldNames : List String := ["level", "levelname"]

/-- The JS `||`-chain `data.f1 || data.f2 || ... || ''`: first field whose
value is truthy, else the empty string. -/
def chainLookup (fs : JsonFields) : List String → Json
  | [] => Json.str ""
  | n :: rest =>
    match lookupFields fs n with
    | some v => if truthy v then v else chainLookup fs rest
    | none => chainLookup fs rest

/-- `Date.now() / 1000` as the default entry timestamp (seconds). -/
def defaultTs (now : Nat) : Json := Json.num (Int.ofNat now)

/-- The object branch of the normalizer.  `Except Unit` models a thrown
`TypeError` (`msg.startsWith` / `level.toUpperCase` on a non-string),
which the surrounding `try` turns into the raw fallback. -/
def objBranch (fs : JsonFields) (now : Nat) : Except Unit (Option RawEntry) :=
  let m0 := chainLookup fs msgFieldNames
  let lv := chainLookup fs levelFieldNames
  let step1 : Except Unit Json :=
    if truthy lv ∧ truthy m0 then
      match m0 with
      | .str s =>
        if jsStartsWith s "[" then .ok m0
        else
          match lv with
          | .str ls => .ok (.str ("[" ++ jsToUpper ls ++ "] " ++ s))
          | _ => .error ()
      | _ => .error ()
    else .ok m0
  match step1 with
  | .error e => .error e
  | .ok m1 =>
    let m2 := if ¬ truthy m1 ∧ 0 < fieldsLength fs
              then Json.str (stringify (.obj fs)) else m1
    let ts :=
      match lookupFields fs "ts" with
      | some v => if truthy v then v else defaultTs now
      | none => defaultTs now
    .ok (if truthy m2 then some ⟨ts, m2⟩ else none)

/-- `String(data)` for the non-string, non-object branch. -/
def jsStringOf : Json → String
  | .null => "null"
  | .bool b => if b then "true" else "false"
  | .num n => toString n
  | .str s => s
  | .arr xs => stringifyElems xs
  | .obj _ => "[object Object]"

/-- The body of the `try` block of the `onmessage` handler, given the
successfully parsed payload.  An array is `typeof 'object'`, so it takes
the object branch with every named field lookup `undefined` and
`Object.keys` enumerating its indices. -/
def innerHandler (data : Json) (now : Nat) : Except Unit (Option RawEntry) :=
  match data with
  | .str s => .ok (if s ≠ "" then some ⟨defaultTs now, .str s⟩ else none)
  | .obj fs => objBranch fs now
  | .arr xs =>
    let m2 := if 0 < jsonListLength xs then Json.str (stringify (.arr xs)) else Json.str ""
    .ok (if truthy m2 then some ⟨defaultTs now, m2⟩ else none)
  | other => .ok (if jsStringOf other ≠ "" then some ⟨defaultTs now, .str (jsStringOf other)⟩ else none)

/-- The `catch` branch: raw, unparseable (or handler-throwing) event text
becomes a `[RAW]`-tagged entry unless it is whitespace. -/
def rawFallback (raw : String) (now : Nat) : Option RawEntry :=
  if jsTrim raw ≠ "" then some ⟨defaultTs now, .str ("[RAW] " ++ raw)⟩ else none

/-- The whole `onmessage` handler: empty event data is skipped; a parse
failure or a thrown `TypeError` falls back to the raw text; otherwise the
normalized entry (if any) is emitted. -/
def onMessage (raw : String) (parsed : Option Json) (now : Nat) : Option RawEntry :=
  if raw = "" then none
  else
    match parsed with
    | none => rawFallback raw now
    | some data =>
      match innerHandler data now with
      | .ok r => r
      | .error _ => rawFallback raw now

/-- The message component of an emitted entry. -/
def entryMsg (e : Option RawEntry) : Option Json := e.map RawEntry.msg

/-! ## `ocrService.processWithDocker` — watchdog heartbeat

The `setInterval` callback closes over `lastLogTime` (ms) and
`currentPhase`; one tick is a pure function of those and `Date.now()`. -/

/-- Fallback message pool (initial value of `messages` in the source). -/
def heartbeatDefaultPool : List String :=
  ["Engine is crunching data...", "Holding tight...", "Still working on it..."]

/-- Message pool while `currentPhase === 'detecting'`. -/
def heartbeatDetectingPool : List String :=
  ["Analyzing complex image patterns...",
   "Identifying potential text lines...",
   "Refining bounding box coordinates...",
   "Filtering non-text elements...",
   "Mapping text density..."]

/-- Message pool while `currentPhase === 'processing'`. -/
def heartbeatProcessingPool : List String :=
  ["Warming up OCR engine...",
   "Loading image into memory...",
   "Preprocessing image filters...",
   "Initializing neural network..."]

/-- The pool selected for a phase (the default is dead code: the trigger
condition already restricts to `detecting`/`processing`). -/
def heartbeatPool (phase : String) : List String :=
  if phase = "detecting" then heartbeatDetectingPool
  else if phase = "processing" then heartbeatProcessingPool
  else heartbeatDefaultPool

/-- One tick of the heartbeat interval: emits a synthetic `[UI: WAITING]`
entry and resets `lastLogTime` exactly when the stream has been silent for
more than 3000 ms and the phase is `detecting` or `processing`.  Returns
`(message, new lastLogTime)` on emission. -/
def heartbeatTick (now lastLogTime : Nat) (phase : String) : Option (String × Nat) :=
  if 3000 < now - lastLogTime ∧ (phase = "detecting" ∨ phase = "processing") then
    let messages := heartbeatPool phase
    let msgIndex := (now / 3000) % messages.length
    some ("[UI: WAITING] " ++ messages.getD msgIndex "", now)
  else none

/-! ## `processWithDocker` — stream-log interpretive layer

The two regexes are embedded as explicit leftmost-match backtracking
matchers over character lists:
`/rec_res:.*?\(["'](.*?)["'],\s*([0-9.]+)\)/` and
`/dt_boxes num\s*:\s*(\d+)/`.  `.` never matches a newline; `\s` does. -/

/-- `["']`. -/
def isQuote (c : Char) : Bool := c = '"' ∨ c = '\''

/-- `[0-9.]`. -/
def isDigitDot (c : Char) : Bool := c.isDigit ∨ c = '.'

/-- After the closing quote: match `,\s*([0-9.]+)\)` and return the
captured confidence text. -/
def parseClose (cs : List Char) : Option String :=
  match cs with
  | ',' :: rest =>
    let r2 := rest.dropWhile isSpaceJS
    let ds := r2.takeWhile isDigitDot
    if ds.isEmpty then none
    else
      match r2.drop ds.length with
      | ')' :: _ => some (String.mk ds)
      | _ => none
  | _ => none

/-- Lazy match of `(.*?)["'],\s*([0-9.]+)\)` with the capture accumulated
in reverse: prefer closing at the earliest quote whose tail matches. -/
def matchTail : List Char → List Char → Option (String × String)
  | [], _ => none
  | c :: rest, acc =>
    if isQuote c then
      match parseClose rest with
      | some score => some (String.mk acc.reverse, score)
      | none => matchTail rest (c :: acc)
    else if c = '\n' then none
    else matchTail rest (c :: acc)

/-- Lazy match of `.*?\(["']...` after the literal `rec_res:`: scan left to
right for `(` followed by a quote whose tail matches; `.` cannot cross a
newline. -/
def findOpen : List Char → Option (String × String)
  | [] => none
  | c :: rest =>
    if c = '\n' then none
    else if c = '(' then
      match rest with
      | q :: rest2 =>
        if isQuote q then
          match matchTail rest2 [] with
          | some r => some r
          | none => findOpen rest
        else findOpen rest
      | [] => none
    else findOpen rest

/-- Leftmost match of the whole `rec_res` regex: try every occurrence of
the literal `rec_res:` in order.  Returns `(captured text, captured
confidence)` of the first full match. -/
def recResSearch : List Char → Option (String × String)
  | [] => none
  | c :: rest =>
    if isPre "rec_res:".data (c :: rest) then
      match findOpen ((c :: rest).drop 8) with
      | some r => some r
      | none => recResSearch rest
    else recResSearch rest

/-- After the literal `dt_boxes num`: match `\s*:\s*(\d+)`. -/
def dtBoxesTry (cs : List Char) : Option String :=
  match cs.dropWhile isSpaceJS with
  | ':' :: r2 =>
    let r3 := r2.dropWhile isSpaceJS
    let ds := r3.takeWhile Char.isDigit
    if ds.isEmpty then none else some (String.mk ds)
  | _ => none

/-- Leftmost match of `/dt_boxes num\s*:\s*(\d+)/`. -/
def dtBoxesSearch : List Char → Option String
  | [] => none
  | c :: rest =>
    if isPre "dt_boxes num".data (c :: rest) then
      match dtBoxesTry ((c :: rest).drop 12) with
      | some d => some d
      | none => dtBoxesSearch rest
    else dtBoxesSearch rest

/-! Rendering of the interpreted entries. -/

/-- Value of a digit run. -/
def digitsVal (cs : List Char) : Nat :=
  cs.foldl (fun a c => a * 10 + (c.toNat - '0'.toNat)) 0

/-- `Math.round(parseFloat(match[2]) * 100)` rendered for the template
literal (the capture `[0-9.]+` is always nonempty; an unparseable capture
such as `"."` gives `NaN`).  `parseFloat` reads the leading
`digits[.digits]` literal; the rounding of the nonnegative score is
`⌊q·100 + 1/2⌋`, computed over exact rationals in integer arithmetic —
the source's binary-float detour is approximated exactly and no claim
depends on the rendered digits. -/
def scoreDisplay (s : String) : String :=
  let cs := s.data
  let intPart := cs.takeWhile Char.isDigit
  let rest := cs.drop intPart.length
  let intVal := digitsVal intPart
  match rest with
  | '.' :: rest2 =>
    let fracPart := rest2.takeWhile Char.isDigit
    if intPart.isEmpty ∧ fracPart.isEmpty then "NaN"
    else
      let k := fracPart.length
      let num := intVal * 10 ^ k + digitsVal fracPart
      toString ((200 * num + 10 ^ k) / (2 * 10 ^ k))
  | _ => if intPart.isEmpty then "NaN" else toString ((200 * intVal + 1) / 2)

/-- The special stream-data entry for the UI typewriter effect. -/
def streamDataLine (txt : String) : String := "[STREAM_DATA] " ++ txt

/-- The readable recognition info entry. -/
def recognizedLine (txt scoreStr : String) : String :=
  "[OCR INFO] 📖 Recognized: \"" ++ txt ++ "\" (" ++ scoreStr ++ "%)"

/-- `msg.split('shape:')[1].trim()` rendered into the dimensions entry
(the `includes` guard guarantees the occurrence). -/
def imageShapeLine (msg : String) : String :=
  "[OCR INFO] 📏 Image Dimensions: " ++ jsTrim (splitPart1 msg "shape:")

/-- The text-detection info entry. -/
def dtBoxesLine (n : String) : String :=
  "[OCR INFO] 🔍 Text Detection: Found " ++ n ++ " regions"

/-- The messages forwarded to `onLog` by the stream-log callback for one
incoming entry text (an empty message is dropped by the guard).  A
`rec_res` line whose captured text is nonempty is replaced by exactly the
stream-data and recognition entries (`return` skips the pass-through). -/
def handleStreamMsg (msg : String) : List String :=
  if msg = "" then []
  else
    let e1 := if strContains msg "image shape:" then [imageShapeLine msg] else []
    let e2 :=
      match dtBoxesSearch msg.data with
      | some d => [dtBoxesLine d]
      | none => []
    let rec? :=
      if strContains msg "rec_res" then
        match recResSearch msg.data with
        | some (txt, score) => if txt ≠ "" then some (txt, score) else none
        | none => none
      else none
    match rec? with
    | some (txt, score) => e1 ++ e2 ++ [streamDataLine txt, recognizedLine txt (scoreDisplay score)]
    | none => e1 ++ e2 ++ [msg]

/-- Phase detection over one real stream entry (the three `includes`
checks of the source, applied in order). -/
def phaseOfMsg (phase msg : String) : String :=
  let p1 := if strContains msg "Step 1/3" then "detecting" else phase
  let p2 := if strContains msg "Step 2/3" then "recognizing" else p1
  if strContains msg "Success: True" then "complete" else p2

/-! ## `processWithDocker` — upload progress handler -/

/-- `Math.round((loaded / total) * 100)` over exact rationals
(`⌊x + 1/2⌋` in integer arithmetic; requires `total > 0`, which
`lengthComputable` guarantees). -/
def jsRound100 (loaded total : Nat) : Nat := (200 * loaded + total) / (2 * total)

/-- `(bytes / (1024 * 1024)).toFixed(2)`, decimally rounded over exact
rationals (cosmetic only; no claim depends on the digits). -/
def mb2 (bytes : Nat) : String :=
  let n := (200 * bytes + 1048576) / (2 * 1048576)
  toString (n / 100) ++ "." ++ (if n % 100 < 10 then "0" ++ toString (n % 100) else toString (n % 100))

/-- The percentage progress line. -/
def uploadingLine (percent loaded total : Nat) : String :=
  "[SYSTEM] Uploading... " ++ toString percent ++ "% (" ++ mb2 loaded ++ " / " ++ mb2 total ++ " MB)"

/-- The 100 %-boundary line. -/
def uploadCompleteLine : String := "[SYSTEM] Upload complete. Waiting for server response..."

/-- `xhr.upload.onprogress` for one event: returns the new `currentPhase`
and the log lines emitted.  At 100 % the phase switches to `processing`
and the completion line is logged; at a multiple of ten the percentage
line is logged; finally `init` is promoted to `uploading`. -/
def onUploadProgress (phase : String) (lengthComputable : Bool) (loaded total : Nat) :
    String × List String :=
  if lengthComputable then
    let percent := jsRound100 loaded total
    let pl : String × List String :=
      if percent = 100 then ("processing", [uploadCompleteLine])
      else if percent = 0 ∨ percent % 10 = 0 then (phase, [uploadingLine percent loaded total])
      else (phase, [])
    (if pl.1 = "init" then "uploading" else pl.1, pl.2)
  else (phase, [])

/-- Run a sequence of upload-progress events
(`lengthComputable, loaded, total` triples), collecting the emitted log
lines in order. -/
def uploadRun : String → List (Bool × Nat × Nat) → String × List String
  | phase, [] => (phase, [])
  | phase, (lc, loaded, total) :: rest =>
    let step := onUploadProgress phase lc loaded total
    let tail := uploadRun step.1 rest
    (tail.1, step.2 ++ tail.2)

/-! ## The shared `currentPhase` under interleaved events -/

/-- An observable event during the job: an upload-progress event or an
incoming stream entry. -/
inductive JobEvent where
  | uploadProgress (lengthComputable : Bool) (loaded total : Nat)
  | streamMsg (msg : String)

/-- How one event updates `currentPhase` (the stream callback's guard
drops empty messages before phase detection). -/
def jobPhaseStep (phase : String) : JobEvent → String
  | .uploadProgress lc loaded total => (onUploadProgress phase lc loaded total).1
  | .streamMsg m => if m = "" then phase else phaseOfMsg phase m

/-- Does an event carry one of the phase-advancing text markers? -/
def isMarkerEvent : JobEvent → Bool
  | .streamMsg m =>
    strContains m "Step 1/3" || strContains m "Step 2/3" || strContains m "Success: True"
  | .uploadProgress _ _ _ => false

/-! ## `processWithDocker` — terminal XHR outcome and teardown -/

/-- A JS `Error` value (identified by its message, as in the source). -/
structure JsError where
  message : String
deriving DecidableEq

/-- The terminal event of the XHR: `onload` (with its status, status text
and the parse result of `responseText`), `ontimeout`, or `onerror`. -/
inductive TerminalEvent where
  | load (status : Nat) (statusText : String) (parsed : Option Json)
  | timedOut
  | netError

/-- The error rejected on `ontimeout`. -/
def timeoutError : JsError :=
  ⟨"Request timed out. The backend server took too long to respond (3 mins)."⟩

/-- The error rejected on `onerror`. -/
def networkError : JsError := ⟨"Network request failed"⟩

/-- The error rejected on a non-2xx `onload`. -/
def serverError (status : Nat) (statusText : String) : JsError :=
  ⟨"Backend error: " ++ toString status ++ " " ++ statusText⟩

/-- The error rejected when the 2xx response body fails to parse. -/
def invalidJsonError : JsError := ⟨"Invalid JSON response from server"⟩

/-- `xhr.timeout` (ms): the hard ceiling on the upload call. -/
def xhrTimeoutMs : Nat := 180000

/-- How the inner promise settles for each terminal event. -/
def xhrOutcome : TerminalEvent → Except JsError Json
  | .load status statusText parsed =>
    if 200 ≤ status ∧ status < 300 then
      match parsed with
      | some d => .ok d
      | none => .error invalidJsonError
    else .error (serverError status statusText)
  | .timedOut => .error timeoutError
  | .netError => .error networkError

/-- The per-call resources: the heartbeat interval and the log-stream
subscription opened before the `try` block. -/
structure JobResources where
  heartbeatActive : Bool
  streamActive : Bool
deriving DecidableEq

/-- The whole call around the terminal event: the `finally` block runs
`clearInterval` and `stopLogging` on every path, settled or rejected. -/
def runTerminal (ev : TerminalEvent) : Except JsError Json × JobResources :=
  let outcome := xhrOutcome ev
  (outcome, ⟨false, false⟩)

/-! ## `ocrService.listScans` -/

/-- How the `fetch('/scans')` round trip can end: a rejected fetch, or a
response with its `ok` flag and the parse result of its body (`none` when
`res.json()` rejects). -/
inductive FetchOutcome where
  | netFail
  | response (ok : Bool) (parsed : Option Json)

/-- `Array.isArray`. -/
def isArrayJson : Json → Bool
  | .arr _ => true
  | _ => false

/-- The `try` body of `listScans`. -/
def listScansBody : FetchOutcome → Except JsError JsonList
  | .netFail => .error ⟨"Failed to fetch"⟩
  | .response ok parsed =>
    if ¬ ok then .error ⟨"Failed to fetch scans"⟩
    else
      match parsed with
      | none => .error ⟨"Unexpected end of JSON input"⟩
      | some data =>
        match (if truthy data then jsonGetField data "scans" else none) with
        | some (.arr xs) => .ok xs
        | _ =>
          match data with
          | .arr xs => .ok xs
          | _ => .ok .nil

/-- `listScans`: the `catch` turns every rejection into the empty array,
so the call always resolves with an array. -/
def listScans (o : FetchOutcome) : JsonList :=
  match listScansBody o with
  | .ok l => l
  | .error _ => JsonList.nil

/-! ## `App.handleUpload` — streamed-text accumulation and reconciliation -/

/-- A recognized text region of the terminal response. -/
structure OcrBlock where
  text : String
  box : List Int
deriving DecidableEq

/-- The terminal artifact as `handleUpload` consumes it.  `raw_text` is
optional in the backend schema; a missing `success` flag behaves as
`false` under the source's truthiness checks, so it is a plain `Bool`. -/
structure OcrResponse where
  success : Bool
  raw_text : Option String
  blocks : List OcrBlock
deriving DecidableEq

/-- One `onLog` callback invocation of `handleUpload`: `[STREAM_DATA]`
entries are diverted into `streamedContent` as
`msg.replace('[STREAM_DATA]', '').trim() + '\n'`. -/
def accumStep (acc : String) (m : String) : String :=
  if jsStartsWith m "[STREAM_DATA]" then
    acc ++ jsTrim (removeFirstStr m "[STREAM_DATA]") ++ "\n"
  else acc

/-- `streamedContent` after a sequence of forwarded log messages. -/
def accumulate (msgs : List String) : String := msgs.foldl accumStep ""

/-- The substitution log entry of the reliability fix. -/
def substitutionLogMsg : String :=
  "[SYSTEM] Backend returned empty text, falling back to streamed content."

/-- The log entry appended when partial text is restored after an error. -/
def restoredLogMsg : String := "Restored partial text from stream despite error."

/-- `!result.raw_text || result.raw_text.trim() === ''`. -/
def rawTextMissing (r : OcrResponse) : Bool :=
  match r.raw_text with
  | none => true
  | some s => s = "" ∨ jsTrim s = ""

/-- The reliability fix on a settled result: substitute the streamed
content into `raw_text` when the backend text is empty/whitespace and the
streamed content is non-whitespace, logging the substitution. -/
def reconcileOk (result : OcrResponse) (streamedContent : String) : OcrResponse × List String :=
  if rawTextMissing result ∧ 0 < (jsTrim streamedContent).length then
    ({ result with raw_text := some streamedContent }, [substitutionLogMsg])
  else (result, [])

/-- `handleUpload` from the settling of `processWithDocker` onwards: the
`try` branch applies the reliability fix and logs completion; the `catch`
branch logs the error and, when any text was streamed, replaces the
outcome by a synthetic unsuccessful result carrying the streamed text.
Returns the delivered outcome and the log entries appended. -/
def handleTerminal (outcome : Except JsError OcrResponse) (streamedContent : String) :
    Except JsError OcrResponse × List String :=
  match outcome with
  | .ok result =>
    let fixed := reconcileOk result streamedContent
    (.ok fixed.1,
     fixed.2 ++ [if fixed.1.success then "OCR Processing Complete"
                 else "OCR completed but marked as unsuccessful"])
  | .error e =>
    if 0 < streamedContent.length then
      (.ok ⟨false, some streamedContent, []⟩, ["Error: " ++ e.message, restoredLogMsg])
    else (.error e, ["Error: " ++ e.message])

/-- Concatenation of a list of strings in order. -/
def concatAll : List String → String
  | [] => ""
  | s :: rest => s ++ concatAll rest

/-! ## Helper lemmas -/

lemma length_pos_of_ne_empty (s : String) (h : s ≠ "") : 0 < s.length := by
  cases s with
  | mk data =>
    cases data with
    | nil => exact absurd rfl h
    | cons c cs => simp [String.length]

lemma serverError_ne_timeoutError (st : Nat) (t : String) : serverError st t ≠ timeoutError := by
  intro h
  have h2 : isPre "Backend error: ".data (serverError st t).message.data =
      isPre "Backend error: ".data timeoutError.message.data := by rw [h]
  rw [show isPre "Backend error: ".data (serverError st t).message.data = true from rfl] at h2
  rw [show isPre "Backend error: ".data timeoutError.message.data = false from rfl] at h2
  exact Bool.noConfusion h2

/-! ## Claim C1 — empty-text substitution in the reconciler -/

/-- Counterexample to claim C1: a terminal result with `success = false`
but a nonempty, non-whitespace `raw_text` (here `"Partial"`), together
with nonempty accumulated streamed text, is delivered unchanged — the
streamed text is not substituted and no substitution log entry is
appended, although the claim's trigger (success flag false, streamed text
nonempty) holds. -/
theorem c1_success_flag_counterexample :
    handleTerminal (.ok ⟨false, some "Partial", []⟩) "Total $42.00\n"
      = (.ok ⟨false, some "Partial", []⟩, ["OCR completed but marked as unsuccessful"]) ∧
    ("Partial" : String) ≠ "Total $42.00\n" ∧
    substitutionLogMsg ∉ ["OCR completed but marked as unsuccessful"] := by
  refine ⟨rfl, by decide, by decide⟩

/-- Claim C1 (amended): substitution is keyed solely on the primary text
being absent/empty/whitespace — the success flag plays no role — and
requires the accumulated streamed text to have non-whitespace content.
Under those conditions the reconciled result's primary text equals the
accumulated streamed text and the substitution log entry is appended. -/
theorem c1_substitution (result : OcrResponse) (streamed : String)
    (h1 : rawTextMissing result = true)
    (h2 : 0 < (jsTrim streamed).length) :
    (handleTerminal (.ok result) streamed).1 = .ok { result with raw_text := some streamed } ∧
    substitutionLogMsg ∈ (handleTerminal (.ok result) streamed).2 := by
  simp [handleTerminal, reconcileOk, h1, h2]

/-- Witness for C1 (amended) at Scenario B: `success: true`, empty
`raw_text`, streamed `"Total $42.00\n"`. -/
theorem c1_substitution_witness :
    (handleTerminal (.ok ⟨true, some "", []⟩) "Total $42.00\n").1
      = .ok ⟨true, some "Total $42.00\n", []⟩ ∧
    substitutionLogMsg ∈ (handleTerminal (.ok ⟨true, some "", []⟩) "Total $42.00\n").2 := by
  have h := c1_substitution ⟨true, some "", []⟩ "Total $42.00\n" (by decide) (by decide)
  exact ⟨h.1, h.2⟩

/-! ## Claim C2 — error-path reconciliation -/

/-- Claim C2: when the terminal call fails with an error, a job with
nonempty accumulated streamed text resolves with a synthesized result
(`success = false`, primary text = the streamed text, no blocks) and the
restoration log entry; a job with no accumulated text propagates the
error value unchanged. -/
theorem c2_error_outcome (e : JsError) (s : String) :
    (s ≠ "" →
      handleTerminal (.error e) s =
        (.ok ⟨false, some s, []⟩, ["Error: " ++ e.message, restoredLogMsg])) ∧
    handleTerminal (.error e) "" = (.error e, ["Error: " ++ e.message]) := by
  constructor
  · intro h
    have hl : 0 < s.length := length_pos_of_ne_empty s h
    simp [handleTerminal, hl]
  · simp [handleTerminal]

/-- Witness for C2 at Scenario C (network error after streaming
`"Item A\nItem B\n"`) and Scenario D (network error, nothing streamed). -/
theorem c2_error_outcome_witness :
    handleTerminal (.error networkError) "Item A\nItem B\n" =
      (.ok ⟨false, some "Item A\nItem B\n", []⟩,
       ["Error: Network request failed", restoredLogMsg]) ∧
    handleTerminal (.error networkError) "" =
      (.error networkError, ["Error: Network request failed"]) := by
  have h := c2_error_outcome networkError "Item A\nItem B\n"
  have h2 := c2_error_outcome networkError ""
  exact ⟨h.1 (by decide), h2.2⟩

/-! ## Claim C4 — teardown on every exit path, distinguishable timeout -/

/-- Claim C4: on every terminal event the `finally` block leaves both the
heartbeat interval and the log-stream subscription torn down; the
180000 ms ceiling rejects with the timeout error, which differs from the
network-failure error, from the malformed-response error, and from every
non-2xx server error. -/
theorem c4_teardown (ev : TerminalEvent) :
    (runTerminal ev).2 = ⟨false, false⟩ ∧
    (ev = .timedOut → (runTerminal ev).1 = .error timeoutError) ∧
    xhrTimeoutMs = 180000 ∧
    timeoutError ≠ networkError ∧
    timeoutError ≠ invalidJsonError ∧
    (∀ st t p, xhrOutcome (.load st t p) ≠ .error timeoutError) := by
  refine ⟨rfl, ?_, rfl, by decide, by decide, ?_⟩
  · rintro rfl; rfl
  · intro st t p h
    cases p with
    | some d =>
      by_cases hs : 200 ≤ st ∧ st < 300
      · simp only [xhrOutcome, if_pos hs] at h
        exact Except.noConfusion h
      · simp only [xhrOutcome, if_neg hs] at h
        injection h with h2
        exact serverError_ne_timeoutError st t h2
    | none =>
      by_cases hs : 200 ≤ st ∧ st < 300
      · simp only [xhrOutcome, if_pos hs] at h
        injection h with h2
        exact absurd h2 (by decide)
      · simp only [xhrOutcome, if_neg hs] at h
        injection h with h2
        exact serverError_ne_timeoutError st t h2

/-- Witness for C4 at the timeout event and at a concrete 500 response. -/
theorem c4_teardown_witness :
    (runTerminal .timedOut).2 = ⟨false, false⟩ ∧
    (runTerminal .timedOut).1 = .error timeoutError ∧
    xhrOutcome (.load 500 "Internal Server Error" none) ≠ .error timeoutError := by
  have h := c4_teardown .timedOut
  exact ⟨h.1, h.2.1 rfl, h.2.2.2.2.2 500 "Internal Server Error" none⟩

/-! ## Claim C3 — watchdog emission condition -/

/-- Counterexample to claim C3: during the `recognizing` phase (the
second busy sub-phase, entered on the `Step 2/3` marker) a tick after
more than 3 time-units of silence emits nothing, although `recognizing`
is none of `init`/`uploading`/`complete`/`failed` and the claim demands a
synthetic entry for every such busy phase. -/
theorem c3_busy_phase_counterexample :
    3000 < 4200 - 0 ∧
    ("recognizing" : String) ≠ "init" ∧ ("recognizing" : String) ≠ "uploading" ∧
    ("recognizing" : String) ≠ "complete" ∧ ("recognizing" : String) ≠ "failed" ∧
    heartbeatTick 4200 0 "recognizing" = none := by
  refine ⟨by decide, by decide, by decide, by decide, by decide, rfl⟩

/-- Claim C3 (amended): a synthetic entry is emitted iff the silence
exceeds 3000 ms and the phase is `detecting` (busy stage A) or
`processing` (awaiting the response) — the `recognizing` busy stage never
triggers.  On emission the silence clock is reset to the tick time, the
message is drawn from the phase-specific pool indexed by the tick time
(`⌊now/3000⌋ mod pool size`), and no further tick emits until more than a
full threshold has elapsed again. -/
theorem c3_heartbeat (now lastLog : Nat) (phase : String) :
    ((heartbeatTick now lastLog phase).isSome ↔
      (3000 < now - lastLog ∧ (phase = "detecting" ∨ phase = "processing"))) ∧
    (∀ msg newLast, heartbeatTick now lastLog phase = some (msg, newLast) →
      newLast = now ∧
      msg = "[UI: WAITING] " ++
        (heartbeatPool phase).getD ((now / 3000) % (heartbeatPool phase).length) "" ∧
      (∀ now2 phase2, now2 - now ≤ 3000 → heartbeatTick now2 now phase2 = none)) := by
  constructor
  · constructor
    · intro h
      by_cases hc : 3000 < now - lastLog ∧ (phase = "detecting" ∨ phase = "processing")
      · exact hc
      · simp [heartbeatTick, hc] at h
    · intro hc
      simp [heartbeatTick, hc]
  · intro msg newLast h
    by_cases hc : 3000 < now - lastLog ∧ (phase = "detecting" ∨ phase = "processing")
    · simp only [heartbeatTick, if_pos hc, Option.some.injEq, Prod.mk.injEq] at h
      refine ⟨h.2.symm, h.1.symm, ?_⟩
      intro now2 phase2 hle
      have hng : ¬ (3000 < now2 - now ∧ (phase2 = "detecting" ∨ phase2 = "processing")) := by
        intro hcontra
        omega
      simp [heartbeatTick, hng]
    · simp [heartbeatTick, hc] at h

/-- Witness for C3 (amended): a tick at 10000 ms after silence since 0
in the `detecting` phase emits and resets; the follow-up tick at 12000 ms
is suppressed. -/
theorem c3_heartbeat_witness :
    heartbeatTick 10000 0 "detecting" =
      some ("[UI: WAITING] " ++
        (heartbeatPool "detecting").getD ((10000 / 3000) % (heartbeatPool "detecting").length) "",
        10000) ∧
    heartbeatTick 12000 10000 "detecting" = none := by
  have h := (c3_heartbeat 10000 0 "detecting").2
    ("[UI: WAITING] " ++
      (heartbeatPool "detecting").getD ((10000 / 3000) % (heartbeatPool "detecting").length) "")
    10000 (by decide)
  exact ⟨by decide, h.2.2 12000 "detecting" (by decide)⟩

/-! ## Claim C6 — progress-line emission -/

/-- Counterexample to claim C6: two successive progress events both
rounding to 10 % each emit a percentage line — the same percentage (here
even the identical line) is reported twice, so emission is not limited to
one line per 10 % step. -/
theorem c6_duplicate_counterexample :
    (uploadRun "uploading" [(true, 100, 1000), (true, 104, 1000)]).2 =
      ["[SYSTEM] Uploading... 10% (0.00 / 0.00 MB)",
       "[SYSTEM] Uploading... 10% (0.00 / 0.00 MB)"] := by
  decide

/-- Claim C6 (amended): a log line is emitted for exactly those
length-computable progress events whose rounded percentage is a multiple
of ten — the 100 % event emitting the completion line, every other
multiple-of-ten event emitting the percentage line — and an event whose
rounded percentage is not a multiple of ten emits nothing.  Distinct
events rounding to the same multiple of ten each emit their own line, so
duplicate percentage lines are possible. -/
theorem c6_percent_lines (phase : String) (lc : Bool) (loaded total : Nat)
    (htotal : 0 < total) :
    (((onUploadProgress phase lc loaded total).2 ≠ []) ↔
      (lc = true ∧ jsRound100 loaded total % 10 = 0)) ∧
    (lc = true → jsRound100 loaded total = 100 →
      (onUploadProgress phase lc loaded total).2 = [uploadCompleteLine]) ∧
    (lc = true → jsRound100 loaded total % 10 = 0 → jsRound100 loaded total ≠ 100 →
      (onUploadProgress phase lc loaded total).2 =
        [uploadingLine (jsRound100 loaded total) loaded total]) := by
  cases lc with
  | false => simp [onUploadProgress]
  | true =>
    by_cases h100 : jsRound100 loaded total = 100
    · refine ⟨?_, fun _ _ => ?_, fun _ _ hne => absurd h100 hne⟩
      · simp [onUploadProgress, h100]
      · simp [onUploadProgress, h100]
    · by_cases h10 : jsRound100 loaded total % 10 = 0
      · have h0 : (jsRound100 loaded total = 0 ∨ jsRound100 loaded total % 10 = 0) := Or.inr h10
        refine ⟨?_, fun _ hc => absurd hc h100, fun _ _ _ => ?_⟩
        · simp [onUploadProgress, h100, h0, h10]
        · simp [onUploadProgress, h100, h0]
      · have h0 : ¬ (jsRound100 loaded total = 0 ∨ jsRound100 loaded total % 10 = 0) := by
          rintro (h | h)
          · exact h10 (by rw [h])
          · exact h10 h
        have hne0 : jsRound100 loaded total ≠ 0 := fun h => h10 (by rw [h])
        refine ⟨?_, fun _ hc => absurd hc h100, fun _ hc _ => absurd hc h10⟩
        simp [onUploadProgress, h100, h0, h10, hne0]

/-- Witness for C6 (amended) at a 55 %-rounding event (no line), a
20 %-rounding event (percentage line) and the 100 % event. -/
theorem c6_percent_lines_witness :
    (onUploadProgress "uploading" true 55 100).2 = [] ∧
    (onUploadProgress "uploading" true 20 100).2 = [uploadingLine 20 20 100] ∧
    (onUploadProgress "uploading" true 100 100).2 = [uploadCompleteLine] := by
  have h55 := c6_percent_lines "uploading" true 55 100 (by decide)
  have h20 := c6_percent_lines "uploading" true 20 100 (by decide)
  have h100 := c6_percent_lines "uploading" true 100 100 (by decide)
  refine ⟨?_, ?_, h100.2.1 rfl (by decide)⟩
  · by_contra hne
    exact absurd ((h55.1).1 hne).2 (by decide)
  · have := h20.2.2 rfl (by decide) (by decide)
    simpa using this

/-! ## Claim C10 — `listScans` never rejects -/

/-- Claim C10: `listScans` resolves with an array on every outcome — the
empty array on network failure, non-OK status, unparseable body, falsy
body, or a body that is neither an array nor an object with an array
`scans` field; the `scans` array when the body is an object carrying one;
and the body itself when it is an array. -/
theorem c10_list_scans :
    listScans .netFail = .nil ∧
    (∀ p, listScans (.response false p) = .nil) ∧
    listScans (.response true none) = .nil ∧
    (∀ d xs, truthy d = true → jsonGetField d "scans" = some (.arr xs) →
      listScans (.response true (some d)) = xs) ∧
    (∀ xs, listScans (.response true (some (.arr xs))) = xs) ∧
    (∀ d, truthy d = true → (∀ ys, jsonGetField d "scans" ≠ some (.arr ys)) →
      isArrayJson d = false → listScans (.response true (some d)) = .nil) ∧
    (∀ d, truthy d = false → listScans (.response true (some d)) = .nil) := by
  refine ⟨rfl, fun p => rfl, rfl, ?_, fun xs => rfl, ?_, ?_⟩
  · intro d xs ht hg
    simp [listScans, listScansBody, ht, hg]
  · intro d ht hne harr
    cases d with
    | null => exact Bool.noConfusion ht
    | bool b =>
      cases b with
      | false => exact Bool.noConfusion ht
      | true => rfl
    | num n =>
      have hn : ¬ n = 0 := by simpa [truthy] using ht
      simp [listScans, listScansBody, jsonGetField, truthy, hn]
    | str s =>
      have hs : ¬ s = "" := by simpa [truthy] using ht
      simp [listScans, listScansBody, jsonGetField, truthy, hs]
    | arr xs => exact Bool.noConfusion harr
    | obj fs =>
      cases hg : lookupFields fs "scans" with
      | none => simp [listScans, listScansBody, jsonGetField, hg]
      | some v =>
        cases v with
        | arr ys => exact absurd (by simpa [jsonGetField] using hg) (hne ys)
        | null => simp [listScans, listScansBody, jsonGetField, hg]
        | bool b => simp [listScans, listScansBody, jsonGetField, hg]
        | num n => simp [listScans, listScansBody, jsonGetField, hg]
        | str s => simp [listScans, listScansBody, jsonGetField, hg]
        | obj fs2 => simp [listScans, listScansBody, jsonGetField, hg]
  · intro d ht
    cases d with
    | null => rfl
    | bool b =>
      cases b with
      | false => rfl
      | true => exact Bool.noConfusion ht
    | num n =>
      simp only [truthy, decide_eq_false_iff_not, ne_eq, not_not] at ht
      simp [listScans, listScansBody, truthy, ht]
    | str s =>
      simp only [truthy, decide_eq_false_iff_not, ne_eq, not_not] at ht
      simp [listScans, listScansBody, truthy, ht]
    | arr xs => exact Bool.noConfusion ht
    | obj fs => exact Bool.noConfusion ht

/-- Witness for C10 at concrete outcomes: an object body with a `scans`
array, an array body, an object body without one, and a falsy body. -/
theorem c10_list_scans_witness :
    listScans (.response true (some (.obj (.cons "scans" (.arr (.cons (.num 1) .nil)) .nil)))) =
      .cons (.num 1) .nil ∧
    listScans (.response true (some (.arr (.cons (.num 2) .nil)))) = .cons (.num 2) .nil ∧
    listScans (.response true (some (.obj (.cons "scans" (.num 3) .nil)))) = .nil ∧
    listScans (.response true (some .null)) = .nil := by
  have h := c10_list_scans
  refine ⟨h.2.2.2.1 _ _ rfl rfl, h.2.2.2.2.1 _, ?_, h.2.2.2.2.2.2 .null rfl⟩
  refine h.2.2.2.2.2.1 _ rfl ?_ rfl
  intro ys hcontra
  rw [show jsonGetField (.obj (.cons "scans" (.num 3) .nil)) "scans" = some (.num 3) from rfl] at hcontra
  injection hcontra with h2
  exact Json.noConfusion h2

/-! ## Claim C5 — `awaiting-response` after 100 % upload -/

lemma uploadProgress_phase_cases (phase : String) (lc : Bool) (l t : Nat)
    (h : phase ≠ "init") :
    (onUploadProgress phase lc l t).1 = "processing" ∨
    (onUploadProgress phase lc l t).1 = phase := by
  cases lc with
  | false => exact Or.inr rfl
  | true =>
    by_cases h100 : jsRound100 l t = 100
    · left
      simp [onUploadProgress, h100]
    · by_cases h10 : jsRound100 l t = 0 ∨ jsRound100 l t % 10 = 0
      · right
        simp [onUploadProgress, h100, h10, h]
      · right
        simp [onUploadProgress, h100, h10, h]

lemma phaseOfMsg_cases (p m : String) :
    phaseOfMsg p m = p ∨ phaseOfMsg p m = "detecting" ∨
    phaseOfMsg p m = "recognizing" ∨ phaseOfMsg p m = "complete" := by
  unfold phaseOfMsg
  by_cases h3 : strContains m "Success: True" = true
  · simp [h3]
  · by_cases h2 : strContains m "Step 2/3" = true
    · simp [h3, h2]
    · by_cases h1 : strContains m "Step 1/3" = true
      · simp [h3, h2, h1]
      · simp [h3, h2, h1]

lemma phaseOfMsg_no_marker (p m : String)
    (h1 : strContains m "Step 1/3" = false)
    (h2 : strContains m "Step 2/3" = false)
    (h3 : strContains m "Success: True" = false) :
    phaseOfMsg p m = p := by
  simp [phaseOfMsg, h1, h2, h3]

lemma jobPhaseStep_processing (e : JobEvent) (he : isMarkerEvent e = false) :
    jobPhaseStep "processing" e = "processing" := by
  cases e with
  | uploadProgress lc l t =>
    rcases uploadProgress_phase_cases "processing" lc l t (by decide) with h | h
    · exact h
    · exact h
  | streamMsg m =>
    simp only [isMarkerEvent, Bool.or_eq_false_iff] at he
    by_cases hm : m = ""
    · simp [jobPhaseStep, hm]
    · simp [jobPhaseStep, hm, phaseOfMsg_no_marker "processing" m he.1.1 he.1.2 he.2]

lemma jobPhaseStep_inv (p : String) (e : JobEvent)
    (hp : p = "processing" ∨ p = "detecting" ∨ p = "recognizing" ∨ p = "complete") :
    jobPhaseStep p e = "processing" ∨ jobPhaseStep p e = "detecting" ∨
    jobPhaseStep p e = "recognizing" ∨ jobPhaseStep p e = "complete" := by
  cases e with
  | uploadProgress lc l t =>
    have hne : p ≠ "init" := by
      rcases hp with h | h | h | h <;> simp [h]
    rcases uploadProgress_phase_cases p lc l t hne with h | h
    · exact Or.inl h
    · rw [show jobPhaseStep p (.uploadProgress lc l t) = (onUploadProgress p lc l t).1 from rfl, h]
      exact hp
  | streamMsg m =>
    by_cases hm : m = ""
    · simpa [jobPhaseStep, hm] using hp
    · rw [show jobPhaseStep p (.streamMsg m) = if m = "" then p else phaseOfMsg p m from rfl,
        if_neg hm]
      rcases phaseOfMsg_cases p m with h | h
      · rw [h]; exact hp
      · exact Or.inr h

lemma foldl_jobPhaseStep_inv (evs : List JobEvent) :
    ∀ p, (p = "processing" ∨ p = "detecting" ∨ p = "recognizing" ∨ p = "complete") →
      (List.foldl jobPhaseStep p evs = "processing" ∨
       List.foldl jobPhaseStep p evs = "detecting" ∨
       List.foldl jobPhaseStep p evs = "recognizing" ∨
       List.foldl jobPhaseStep p evs = "complete") := by
  induction evs with
  | nil => intro p hp; simpa using hp
  | cons e rest ih =>
    intro p hp
    simpa [List.foldl] using ih (jobPhaseStep p e) (jobPhaseStep_inv p e hp)

/-- Claim C5: a length-computable progress event rounding to 100 % puts
the phase at `processing` (the code's awaiting-response state) and logs
the upload-complete boundary line; from `processing`, any sequence of
further events without a phase-pattern marker leaves the phase at
`processing`, and no sequence of events whatsoever can ever take it back
to `uploading`. -/
theorem c5_awaiting_response (phase : String) (loaded total : Nat) :
    (jsRound100 loaded total = 100 →
      onUploadProgress phase true loaded total = ("processing", [uploadCompleteLine])) ∧
    (∀ evs : List JobEvent, (∀ e ∈ evs, isMarkerEvent e = false) →
      List.foldl jobPhaseStep "processing" evs = "processing") ∧
    (∀ evs : List JobEvent, List.foldl jobPhaseStep "processing" evs ≠ "uploading") := by
  refine ⟨?_, ?_, ?_⟩
  · intro h100
    simp [onUploadProgress, h100]
  · intro evs
    induction evs with
    | nil => intro _; rfl
    | cons e rest ih =>
      intro hall
      have he : isMarkerEvent e = false := hall e (List.mem_cons_self e rest)
      have hrest : ∀ e2 ∈ rest, isMarkerEvent e2 = false :=
        fun e2 hm => hall e2 (List.mem_cons_of_mem e hm)
      simpa [List.foldl, jobPhaseStep_processing e he] using ih hrest
  · intro evs hcontra
    rcases foldl_jobPhaseStep_inv evs "processing" (Or.inl rfl) with h | h | h | h <;>
      rw [hcontra] at h <;> exact absurd h (by decide)

/-- Witness for C5: a full upload event from `uploading`, followed by a
marker-free stream entry; and the no-`uploading` invariant evaluated on a
concrete event list. -/
theorem c5_awaiting_response_witness :
    onUploadProgress "uploading" true 5 5 = ("processing", [uploadCompleteLine]) ∧
    List.foldl jobPhaseStep "processing"
      [JobEvent.streamMsg "ppocr INFO: still working", JobEvent.uploadProgress true 5 5]
      = "processing" ∧
    List.foldl jobPhaseStep "processing" [JobEvent.streamMsg "Step 1/3 started"] ≠ "uploading" := by
  have h := c5_awaiting_response "uploading" 5 5
  refine ⟨h.1 (by decide), ?_, h.2.2 [JobEvent.streamMsg "Step 1/3 started"]⟩
  refine h.2.1 _ ?_
  intro e he
  rcases List.mem_cons.mp he with h1 | h1
  · rw [h1]; decide
  · rcases List.mem_cons.mp h1 with h2 | h2
    · rw [h2]; decide
    · exact absurd h2 (List.not_mem_nil e)


/-! ## Claim C7 — verbatim extraction and level tagging -/

/-- Claim C7: for a payload parsing to an object whose field chain yields
a nonempty string message, the normalizer emits that string verbatim when
no severity level is present (or when the message already starts with a
bracket), and emits it prefixed by the uppercased level in brackets when
a nonempty level is present and the message does not start with `[`. -/
theorem c7_extraction (raw : String) (fs : JsonFields) (now : Nat) (m : String)
    (hraw : raw ≠ "")
    (hm : chainLookup fs msgFieldNames = .str m)
    (hne : m ≠ "") :
    (chainLookup fs levelFieldNames = .str "" →
      entryMsg (onMessage raw (some (.obj fs)) now) = some (.str m)) ∧
    (∀ l, chainLookup fs levelFieldNames = .str l → l ≠ "" →
      jsStartsWith m "[" = false →
      entryMsg (onMessage raw (some (.obj fs)) now) =
        some (.str ("[" ++ jsToUpper l ++ "] " ++ m))) ∧
    (∀ l, chainLookup fs levelFieldNames = .str l →
      jsStartsWith m "[" = true →
      entryMsg (onMessage raw (some (.obj fs)) now) = some (.str m)) := by
  refine ⟨?_, ?_, ?_⟩
  · intro hlev
    simp [onMessage, innerHandler, objBranch, entryMsg, hraw, hm, hlev, truthy, hne]
  · intro l hlev hl hbr
    have hpre : ¬ ("[" ++ jsToUpper l ++ "] " ++ m = "") := by
      intro hcontra
      have h2 : isPre "[".data ("[" ++ jsToUpper l ++ "] " ++ m).data =
          isPre "[".data ("" : String).data := by rw [hcontra]
      rw [show isPre "[".data ("[" ++ jsToUpper l ++ "] " ++ m).data = true from rfl] at h2
      exact Bool.noConfusion h2
    simp [onMessage, innerHandler, objBranch, entryMsg, hraw, hm, hlev, truthy, hne, hl, hbr, hpre]
  · intro l hlev hbr
    by_cases hl : l = ""
    · subst hl
      simp [onMessage, innerHandler, objBranch, entryMsg, hraw, hm, hlev, truthy, hne]
    · simp [onMessage, innerHandler, objBranch, entryMsg, hraw, hm, hlev, truthy, hne, hl, hbr]

/-- Witness for C7 at Scenario E: `{"level":"ERROR","message":"disk full"}`
normalizes to `[ERROR] disk full`; the same payload without the level
field round-trips the message verbatim. -/
theorem c7_extraction_witness :
    entryMsg (onMessage "\x7b\"level\":\"ERROR\",\"message\":\"disk full\"\x7d"
        (some (.obj (.cons "level" (.str "ERROR") (.cons "message" (.str "disk full") .nil))))
        7)
      = some (.str "[ERROR] disk full") ∧
    entryMsg (onMessage "\x7b\"message\":\"disk full\"\x7d"
        (some (.obj (.cons "message" (.str "disk full") .nil))) 7)
      = some (.str "disk full") := by
  have h1 := c7_extraction "\x7b\"level\":\"ERROR\",\"message\":\"disk full\"\x7d"
    (.cons "level" (.str "ERROR") (.cons "message" (.str "disk full") .nil)) 7 "disk full"
    (by decide) (by rfl) (by decide)
  have h2 := c7_extraction "\x7b\"message\":\"disk full\"\x7d"
    (.cons "message" (.str "disk full") .nil) 7 "disk full"
    (by decide) (by rfl) (by decide)
  exact ⟨h1.2.1 "ERROR" (by rfl) (by decide) (by rfl), h2.1 (by rfl)⟩

/-! ## Claim C8 — serialization and raw fallbacks -/

lemma fieldsLength_pos (fs : JsonFields) (h : fs ≠ .nil) : 0 < fieldsLength fs := by
  cases fs with
  | nil => exact absurd rfl h
  | cons k v rest => simp [fieldsLength]

lemma stringify_obj_ne_empty (fs : JsonFields) : stringify (.obj fs) ≠ "" := by
  intro h
  have h2 : isPre "\x7b".data (stringify (.obj fs)).data =
      isPre "\x7b".data ("" : String).data := by rw [h]
  rw [show isPre "\x7b".data (stringify (.obj fs)).data = true from rfl] at h2
  exact Bool.noConfusion h2

/-- Claim C8: a nonempty object payload none of whose recognized message
fields yields truthy text is serialized whole as the entry message; an
unparseable payload with non-whitespace raw text becomes a `[RAW]`-tagged
entry; empty event data, and unparseable whitespace-only data, produce no
entry. -/
theorem c8_fallbacks (raw : String) (fs : JsonFields) (now : Nat) :
    (raw ≠ "" → fs ≠ .nil → chainLookup fs msgFieldNames = .str "" →
      entryMsg (onMessage raw (some (.obj fs)) now) = some (.str (stringify (.obj fs)))) ∧
    (raw ≠ "" → jsTrim raw ≠ "" →
      onMessage raw none now = some ⟨defaultTs now, .str ("[RAW] " ++ raw)⟩) ∧
    (∀ p, onMessage "" p now = none) ∧
    (jsTrim raw = "" → onMessage raw none now = none) := by
  refine ⟨?_, ?_, fun p => rfl, ?_⟩
  · intro hraw hfs hm
    have hlen := fieldsLength_pos fs hfs
    have hstr := stringify_obj_ne_empty fs
    simp [onMessage, innerHandler, objBranch, entryMsg, hraw, hm, truthy, hlen, hstr]
  · intro hraw htrim
    simp [onMessage, rawFallback, hraw, htrim]
  · intro htrim
    by_cases hraw : raw = ""
    · simp [onMessage, hraw]
    · simp [onMessage, rawFallback, hraw, htrim]

/-- Witness for C8 at a schema-less object payload, a raw error line, the
empty event, and a whitespace-only unparseable event. -/
theorem c8_fallbacks_witness :
    entryMsg (onMessage "\x7b\"foo\":1\x7d" (some (.obj (.cons "foo" (.num 1) .nil))) 7)
      = some (.str (stringify (.obj (.cons "foo" (.num 1) .nil)))) ∧
    onMessage "Traceback (most recent call last):" none 7
      = some ⟨defaultTs 7, .str ("[RAW] " ++ "Traceback (most recent call last):")⟩ ∧
    onMessage "" (some .null) 7 = none ∧
    onMessage "  " none 7 = none := by
  have h := c8_fallbacks "\x7b\"foo\":1\x7d" (.cons "foo" (.num 1) .nil) 7
  have h2 := c8_fallbacks "Traceback (most recent call last):" JsonFields.nil 7
  have h3 := c8_fallbacks "  " JsonFields.nil 7
  exact ⟨h.1 (by decide) (by simp) (by rfl),
         h2.2.1 (by decide) (by decide),
         h.2.2.1 (some .null),
         h3.2.2.2 (by decide)⟩


/-! ## Claim C9 — `rec_res` interception and accumulation -/

lemma accumStep_streamData (acc t : String) :
    accumStep acc (streamDataLine t) = acc ++ jsTrim t ++ "\n" := rfl

lemma foldl_accumStep_streamData (txts : List String) :
    ∀ acc, List.foldl accumStep acc (txts.map streamDataLine) =
      acc ++ concatAll (txts.map fun t => jsTrim t ++ "\n") := by
  induction txts with
  | nil =>
    intro acc
    simp [concatAll, String.append_empty]
  | cons t rest ih =>
    intro acc
    simp only [List.map, List.foldl, accumStep_streamData, ih, concatAll]
    simp [String.append_assoc]

/-- Counterexample to claim C9: the entry
`rec_res: (\" hi \", 0.5)` matches the pattern with captured text `" hi "`,
and the accumulated streamed text is the trimmed `"hi\n"` — not the
captured text followed by a newline — so the accumulation clause of the
claim fails (the App strips the tag and trims before appending). -/
theorem c9_trim_counterexample :
    handleStreamMsg "rec_res: (\" hi \", 0.5)" =
      [streamDataLine " hi ", recognizedLine " hi " "50"] ∧
    accumulate (handleStreamMsg "rec_res: (\" hi \", 0.5)") = "hi\n" ∧
    ("hi\n" : String) ≠ " hi " ++ "\n" := by
  refine ⟨by decide, by decide, by decide⟩

/-- Claim C9 (amended): for a stream entry containing `rec_res` whose
regex match captures a *nonempty* text, and which carries neither an
`image shape:` marker nor a `dt_boxes num` match, the raw entry is
suppressed and exactly the `[STREAM_DATA]` and `[OCR INFO] 📖 Recognized`
entries are emitted; the accumulated streamed text is the concatenation,
in arrival order, of the *trimmed* captured texts each followed by a
newline. -/
theorem c9_stream_data (msg txt score : String)
    (hinc : strContains msg "rec_res" = true)
    (hmatch : recResSearch msg.data = some (txt, score))
    (htxt : txt ≠ "")
    (hshape : strContains msg "image shape:" = false)
    (hdt : dtBoxesSearch msg.data = none) :
    handleStreamMsg msg = [streamDataLine txt, recognizedLine txt (scoreDisplay score)] ∧
    (∀ txts : List String, accumulate (txts.map streamDataLine) =
      concatAll (txts.map fun t => jsTrim t ++ "\n")) := by
  constructor
  · by_cases hm : msg = ""
    · rw [hm] at hinc
      exact absurd hinc (by decide)
    · simp [handleStreamMsg, hm, hinc, hmatch, htxt, hshape, hdt]
  · intro txts
    have h := foldl_accumStep_streamData txts ""
    simpa [accumulate, String.empty_append] using h

/-- Witness for C9 (amended) at a concrete recognition line and a
two-element accumulation. -/
theorem c9_stream_data_witness :
    handleStreamMsg "rec_res: (\"hello\", 0.98)" =
      [streamDataLine "hello", recognizedLine "hello" (scoreDisplay "0.98")] ∧
    accumulate ([" a ", "b"].map streamDataLine) =
      concatAll ([" a ", "b"].map fun t => jsTrim t ++ "\n") := by
  have h := c9_stream_data "rec_res: (\"hello\", 0.98)" "hello" "0.98"
    (by decide) (by decide) (by decide) (by decide) (by decide)
  exact ⟨h.1, h.2 [" a ", "b"]⟩


end PaddleOcr
